import Mathlib

set_option maxRecDepth 20000

namespace Moin

/-- Document tree node of the canonical intermediate representation:
an element with a qualified tag, an attribute mapping and ordered children,
or a text leaf. -/
inductive Node where
  | elem : String → List (String × String) → List Node → Node
  | text : String → Node

/-- Look up an attribute value by key in an attribute list. -/
def lookupAttr (k : String) : List (String × String) → Option String
  | [] => none
  | (k', v) :: rest => if k' = k then some v else lookupAttr k rest

/-- The attribute of a node under a key, if the node is an element carrying it. -/
def getAttr (k : String) (n : Node) : Option String :=
  match n with
  | Node.elem _ attrs _ => lookupAttr k attrs
  | Node.text _ => none

/-- The tag of an element node (empty string for a text leaf). -/
def tagOf : Node → String
  | Node.elem t _ _ => t
  | Node.text _ => ""

/-- Modelled from the spec: the "local" scheme prefix that marks an
unresolved wiki-local reference until the link-resolution transform runs
(the converter source moin/converters/markdown_in.py is not in the excerpt). -/
def wikiLocal : String := "wiki.local:"

/-- Modelled from the spec: URI schemes accepted as safe, live external
links; any other scheme (e.g. a script-execution scheme) is unsafe. -/
def allowedSchemes : List String :=
  ["http", "https", "ftp", "file", "mailto", "nntp", "news", "telnet", "irc"]

/-- The scheme of a reference target: the text before the first colon,
when a colon is present. -/
def schemeOf (s : String) : Option String :=
  if s.data.contains ':' then
    some (String.mk (s.data.takeWhile (fun c => !(c == ':'))))
  else
    none

/-- Whether a reference target carries an allowed (safe) URI scheme. -/
def allowedScheme (s : String) : Bool :=
  match schemeOf s with
  | some sch => allowedSchemes.contains sch
  | none => false

/-- Characters kept verbatim by percent-encoding of wiki-local references. -/
def isSafeChar (c : Char) : Bool :=
  c.isAlphanum || c == ':' || c == '/' || c == '.' || c == '_' || c == '-' || c == '~'

/-- Uppercase hexadecimal digit for a value below 16. -/
def hexDigitChar (n : Nat) : Char :=
  if n < 10 then Char.ofNat (48 + n) else Char.ofNat (55 + n)

/-- Percent-encode one character. -/
def quoteChar (c : Char) : String :=
  if isSafeChar c then String.singleton c
  else String.mk ['%', hexDigitChar (c.toNat / 16 % 16), hexDigitChar (c.toNat % 16)]

/-- Modelled from the spec: percent-encoding applied to a reference target
before tagging it with the local scheme prefix. -/
def wikiQuote (s : String) : String :=
  String.join (s.data.map quoteChar)

/-- Modelled from the spec: construction of a link element from a parsed
reference. A target with an allowed scheme passes through as a live link;
any other target (unsafe scheme or no scheme) is rewritten to a wiki-local
literal reference. -/
def linkElement (label : List Node) (target : String) (title : Option String) : Node :=
  let titleAttrs := match title with
    | some t => [("title", t), ("html:title", t)]
    | none => []
  if allowedScheme target then
    Node.elem "a" (titleAttrs ++ [("xlink:href", target)]) label
  else
    Node.elem "a" (titleAttrs ++ [("xlink:href", wikiLocal ++ wikiQuote target)]) label

/-- Modelled from the spec: construction of an image/transclusion element.
A target with an allowed external scheme becomes an object element with an
external-link href; a target without one becomes an unresolved inline
include placeholder tagged with the local scheme prefix. An empty alt text
omits the alt attribute entirely. -/
def imageElement (alt : String) (target : String) (title : Option String) : Node :=
  let altAttrs := if alt = "" then [] else [("html:alt", alt)]
  let titleAttrs := match title with
    | some t => [("html:title", t)]
    | none => []
  if allowedScheme target then
    Node.elem "object" (altAttrs ++ titleAttrs ++ [("xlink:href", target)]) []
  else
    Node.elem "xinclude:include"
      (altAttrs ++ titleAttrs ++ [("xinclude:href", wikiLocal ++ wikiQuote target)]) []

/-- Modelled from the spec: explicitly unsupported inline raw-markup tags,
dropped together with their entire content. -/
def ignoredTags : List String := ["button", "script"]

/-- Modelled from the spec: recognized inline raw-markup tags with the
output tag and fixed attributes each maps to; content is kept as a nested
subtree. -/
def knownInlineTags : List (String × String × List (String × String)) :=
  [("del", ("del", [])), ("code", ("code", [])), ("u", ("u", [])),
   ("ins", ("ins", [])), ("kbd", ("kbd", [])), ("samp", ("samp", [])),
   ("tt", ("literal", [])), ("s", ("s", [])), ("strike", ("s", [])),
   ("q", ("quote", [])), ("em", ("emphasis", [])), ("sub", ("sub", [])),
   ("sup", ("sup", [])), ("big", ("span", [("html:class", "moin-big")])),
   ("small", ("span", [("html-tag", "small")])),
   ("abbr", ("span", [("html-tag", "abbr")])),
   ("acronym", ("span", [("html-tag", "abbr")])),
   ("dfn", ("emphasis", [("html-tag", "dfn")])),
   ("i", ("emphasis", [("html-tag", "i")]))]

/-- Look up a recognized inline tag's mapping. -/
def lookupTag (t : String) :
    List (String × String × List (String × String)) →
    Option (String × List (String × String))
  | [] => none
  | (k, v) :: rest => if k = t then some v else lookupTag t rest

/-- Modelled from the spec: dispatch on an inline raw-markup tag once its
content has been scanned. A blacklisted tag is dropped with its content; a
recognized tag keeps the content as a nested subtree under the mapped tag;
an unrecognized tag is unwrapped, its content kept. -/
def handleTag (t : String) (inner : List Node) : List Node :=
  if ignoredTags.contains t then []
  else
    match lookupTag t knownInlineTags with
    | some (mt, attrs) => [Node.elem mt attrs inner]
    | none => inner

/-- Split a character list at the first occurrence of a character,
returning the parts before and after it. -/
def splitAtChar (t : Char) : List Char → Option (List Char × List Char)
  | [] => none
  | c :: rest =>
    if c = t then some ([], rest)
    else
      match splitAtChar t rest with
      | some (a, b) => some (c :: a, b)
      | none => none

/-- Modelled from the spec: scan of a reference target inside parentheses.
A quote starts an optional title (the target is what came before, trailing
spaces trimmed); otherwise the target ends at the closing parenthesis,
parenthesis pairs inside being tracked by depth. The accumulator holds the
target characters in reverse. -/
def targetAux : List Char → List Char → Nat → Option (String × Option String × List Char)
  | [], _, _ => none
  | '"' :: rest, acc, _ =>
    match splitAtChar '"' rest with
    | some (title, rest') =>
      match rest'.dropWhile (fun c => c == ' ') with
      | ')' :: rest'' =>
        some (String.mk (acc.dropWhile (fun c => c == ' ')).reverse,
              some (String.mk title), rest'')
      | _ => none
    | none => none
  | ')' :: rest, acc, 0 => some (String.mk acc.reverse, none, rest)
  | ')' :: rest, acc, d + 1 => targetAux rest (')' :: acc) d
  | '(' :: rest, acc, d => targetAux rest ('(' :: acc) (d + 1)
  | c :: rest, acc, d => targetAux rest (c :: acc) d

/-- Modelled from the spec: parse of the remainder of a reference after the
opening bracket: label up to the closing bracket, then a parenthesised
target with optional quoted title. Returns label characters, target, title
and the unconsumed rest; fails (for literal-text degradation) otherwise. -/
def parseLinkParts (cs : List Char) :
    Option (List Char × String × Option String × List Char) :=
  match splitAtChar ']' cs with
  | some (label, after) =>
    match after with
    | '(' :: cs2 =>
      match targetAux cs2 [] 0 with
      | some (target, title, rest) => some (label, target, title, rest)
      | none => none
    | _ => none
  | none => none

/-- Parse an inline raw-markup opening tag right after the angle bracket:
an alphabetic name followed directly by the closing angle bracket. The
name is lower-cased. -/
def parseTagName (cs : List Char) : Option (String × List Char) :=
  let name := cs.takeWhile Char.isAlpha
  let rest := cs.dropWhile Char.isAlpha
  match name, rest with
  | [], _ => none
  | _, '>' :: rest' => some (String.mk (name.map Char.toLower), rest')
  | _, _ => none

/-- Case-insensitive check that a character list starts with a (lowercase)
pattern. -/
def matchesCI : List Char → List Char → Bool
  | [], _ => true
  | _ :: _, [] => false
  | p :: ps, c :: cs => (Char.toLower c == p) && matchesCI ps cs

/-- Find the matching end tag for an inline raw-markup element, returning
the content before it and the rest after it. -/
def findClose (name : List Char) : List Char → Option (List Char × List Char)
  | [] => none
  | c :: rest =>
    if matchesCI ('<' :: '/' :: (name ++ ['>'])) (c :: rest) then
      some ([], (c :: rest).drop (name.length + 3))
    else
      match findClose name rest with
      | some (content, after) => some (c :: content, after)
      | none => none

/-- Merge adjacent text leaves and drop empty ones. -/
def coalesce : List Node → List Node
  | [] => []
  | Node.text a :: rest =>
    if a = "" then coalesce rest
    else
      match coalesce rest with
      | Node.text b :: out => Node.text (a ++ b) :: out
      | out => Node.text a :: out
  | n :: rest => n :: coalesce rest

/-- Modelled from the spec: the inline scanner of the Markdown input
converter (its source is not in the excerpt), over the characters of one
block's text run. Recognizes code spans, image/transclusion references,
link references and inline raw-markup tags; on any malformed construct it
degrades to the literal character and continues, so it is total. Fuel
bounds the recursion and always suffices when set to the input length. -/
def scanRaw : Nat → List Char → List Node
  | _, [] => []
  | 0, cs => [Node.text (String.mk cs)]
  | f + 1, '`' :: rest =>
    (match splitAtChar '`' rest with
     | some (inner, rest') =>
       Node.elem "code" [] [Node.text (String.mk inner)] :: scanRaw f rest'
     | none => Node.text "`" :: scanRaw f rest)
  | f + 1, '!' :: '[' :: rest =>
    (match parseLinkParts rest with
     | some (alt, target, title, rest') =>
       imageElement (String.mk alt) target title :: scanRaw f rest'
     | none => Node.text "!" :: scanRaw f ('[' :: rest))
  | f + 1, '[' :: rest =>
    (match parseLinkParts rest with
     | some (label, target, title, rest') =>
       linkElement (coalesce (scanRaw f label)) target title :: scanRaw f rest'
     | none => Node.text "[" :: scanRaw f rest)
  | f + 1, '<' :: rest =>
    (match parseTagName rest with
     | some (name, afterOpen) =>
       (match findClose name.data afterOpen with
        | some (content, rest') =>
          handleTag name (coalesce (scanRaw f content)) ++ scanRaw f rest'
        | none => Node.text "<" :: scanRaw f rest)
     | none => Node.text "<" :: scanRaw f rest)
  | f + 1, c :: rest => Node.text (String.singleton c) :: scanRaw f rest

/-- Run the inline scanner over a string. -/
def inlineScan (s : String) : List Node :=
  coalesce (scanRaw (s.data.length + 1) s.data)

/-- A line is blank when it holds only spaces. -/
def isBlank (l : String) : Bool :=
  l.data.all (fun c => c == ' ')

/-- Split a string into its lines at newline characters. -/
def splitLinesAux : List Char → List Char → List String
  | [], acc => [String.mk acc.reverse]
  | c :: rest, acc =>
    if c = '\n' then String.mk acc.reverse :: splitLinesAux rest []
    else splitLinesAux rest (c :: acc)

/-- The lines of the raw input text. -/
def splitLines (s : String) : List String :=
  splitLinesAux s.data []

/-- Group the maximal runs of non-blank lines; blank lines separate blocks. -/
def splitBlocksAux : List String → List String → List (List String)
  | [], acc => if acc.isEmpty then [] else [acc.reverse]
  | l :: rest, acc =>
    if isBlank l then
      if acc.isEmpty then splitBlocksAux rest []
      else acc.reverse :: splitBlocksAux rest []
    else splitBlocksAux rest (l :: acc)

/-- A thematic break: a line of three or more repeated marker characters. -/
def isThematicBreak (l : String) : Bool :=
  match l.data with
  | [] => false
  | c :: rest =>
    (c == '-' || c == '*' || c == '_') && rest.all (fun x => x == c) &&
      decide (2 ≤ rest.length)

/-- Whether a line is an unordered-list item line: an asterisk marker
followed by a space, after any indentation. -/
def isBullet (l : String) : Bool :=
  match l.data.dropWhile (fun c => c == ' ') with
  | '*' :: ' ' :: _ => true
  | _ => false

/-- The marker column of a line: the number of leading spaces. -/
def indentOf (l : String) : Nat :=
  (l.data.takeWhile (fun c => c == ' ')).length

/-- The text of a list-item line after its marker. -/
def itemText (l : String) : String :=
  String.mk ((l.data.dropWhile (fun c => c == ' ')).drop 2)

/-- Join lines back with newlines. -/
def joinLines : List String → String
  | [] => ""
  | [l] => l
  | l :: rest => l ++ "\n" ++ joinLines rest

/-- A table separator line: non-empty and made solely of dashes, colons,
pipes and spaces, with at least one dash. -/
def isTableSep (l : String) : Bool :=
  !l.data.isEmpty &&
    l.data.all (fun c => c == '-' || c == ':' || c == '|' || c == ' ') &&
    l.data.contains '-'

/-- A block is a table when its second line is a table separator line. -/
def isTableBlock : List String → Bool
  | _ :: sep :: _ => isTableSep sep
  | _ => false

/-- Split a character list at every occurrence of a separator character. -/
def splitOnCharAux (t : Char) : List Char → List Char → List (List Char)
  | [], acc => [acc.reverse]
  | c :: rest, acc =>
    if c = t then acc.reverse :: splitOnCharAux t rest []
    else splitOnCharAux t rest (c :: acc)

/-- Strip leading and trailing spaces from a character list. -/
def trimSpaces (cs : List Char) : List Char :=
  ((cs.dropWhile (fun c => c == ' ')).reverse.dropWhile (fun c => c == ' ')).reverse

/-- The cells of a table row line: split at pipes, each cell trimmed. -/
def cellsOf (l : String) : List String :=
  (splitOnCharAux '|' l.data []).map (fun cs => String.mk (trimSpaces cs))

/-- Modelled from the spec: pad a row's cells with empty cells up to the
expected column count; a column count mismatch is tolerated, not an error. -/
def padCells (n : Nat) (cs : List String) : List String :=
  cs ++ List.replicate (n - cs.length) ""

/-- Modelled from the spec: build the table element. The first line's cells
become header cells under a table-header, the lines after the separator
become ordinary cells under a table-body, padded to the header's column
count. -/
def parseTable (ls : List String) : Node :=
  match ls with
  | hd :: _ :: body =>
    let hcells := cellsOf hd
    let n := hcells.length
    Node.elem "table" []
      [Node.elem "table-header" []
        [Node.elem "table-row" []
          (hcells.map (fun c => Node.elem "table-cell-head" [] (inlineScan c)))],
       Node.elem "table-body" []
        (body.map (fun r =>
          Node.elem "table-row" []
            ((padCells n (cellsOf r)).map
              (fun c => Node.elem "table-cell" [] (inlineScan c)))))]
  | _ => Node.elem "table" [] []

/-- Modelled from the spec: parse the items of an unordered list whose
current level sits at marker column base. A deeper-indented item line
belongs to the current item's body and opens a nested list whose own base
is the nested item's marker column, so nesting depth is relative to the
parent item's marker column, not absolute. Fuel bounds the recursion and
always suffices when set to the number of lines. -/
def parseItems : Nat → Nat → List String → List Node
  | 0, _, _ => []
  | _ + 1, _, [] => []
  | f + 1, base, l :: rest =>
    if isBullet l then
      let p := rest.span (fun x => !(isBullet x && decide (indentOf x ≤ base)))
      let textLines := p.1.takeWhile (fun x => !isBullet x)
      let nestedLines := p.1.dropWhile (fun x => !isBullet x)
      let bodyNodes := inlineScan (joinLines (itemText l :: textLines))
      let nestedNodes := match nestedLines with
        | [] => []
        | n :: _ =>
          [Node.elem "list" [("item-label-generate", "unordered")]
            (parseItems f (indentOf n) nestedLines)]
      Node.elem "list-item" []
        [Node.elem "list-item-body" [] (bodyNodes ++ nestedNodes)]
        :: parseItems f base p.2
    else []

/-- The separator element a thematic break becomes. -/
def sepNode : Node := Node.elem "separator" [("class", "moin-hr3")] []

/-- Modelled from the spec: turn one block of consecutive non-blank lines
into tree nodes: a thematic break becomes a separator element, a bullet
line opens an unordered list, a table-separator second line opens a table,
and anything else is a paragraph whose joined text is inline-scanned. -/
def parseBlock : List String → List Node
  | [] => []
  | l :: rest =>
    if isThematicBreak l then sepNode :: parseBlock rest
    else if isBullet l then
      [Node.elem "list" [("item-label-generate", "unordered")]
        (parseItems (l :: rest).length (indentOf l) (l :: rest))]
    else if isTableBlock (l :: rest) then [parseTable (l :: rest)]
    else [Node.elem "p" [] (inlineScan (joinLines (l :: rest)))]

/-- Parse all blocks of the line list. -/
def parseBlocks (ls : List String) : List Node :=
  ((splitBlocksAux ls []).map parseBlock).flatten

/-- Modelled from the spec: the Markdown input converter (its source
moin/converters/markdown_in.py is not in the excerpt). Given raw text it
produces a document tree rooted at a single page element wrapping a single
body element; it performs no link resolution or include expansion. -/
def convert (s : String) : Node :=
  Node.elem "page" [] [Node.elem "body" [] (parseBlocks (splitLines s))]

/-- A page/body tree around given body content. -/
def pageTree (body : List Node) : Node :=
  Node.elem "page" [] [Node.elem "body" [] body]

/-- A page/body tree holding a single paragraph. -/
def pagePara (ns : List Node) : Node :=
  pageTree [Node.elem "p" [] ns]

/-- All replicated copies of a character equal that character. -/
theorem all_replicate_self (c : Char) :
    ∀ m, (List.replicate m c).all (fun x => x == c) = true := by
  intro m
  induction m with
  | zero => rfl
  | succ k ih => simp [List.replicate_succ, ih]

/-- C1: a link reference whose target uses an unsafe (non-allowed) scheme is
never emitted as a live link with that scheme; its href is rewritten to a
wiki-local literal reference, and in particular the xss example produces a
link whose href is the wiki-local reference, never a javascript href. -/
theorem spec_c1 :
    (∀ label target title sch, schemeOf target = some sch →
      allowedSchemes.contains sch = false →
      getAttr "xlink:href" (linkElement label target title) =
        some (wikiLocal ++ wikiQuote target)) ∧
    convert "[yo](javascript:alert(\"xss\"))" =
      pagePara [Node.elem "a"
        [("title", "xss"), ("html:title", "xss"),
         ("xlink:href", "wiki.local:javascript:alert%28")] [Node.text "yo"],
        Node.text ")"] := by
  constructor
  · intro label target title sch h1 h2
    have hA : allowedScheme target = false := by
      unfold allowedScheme
      rw [h1]
      exact h2
    cases title <;> simp [linkElement, hA, getAttr, lookupAttr]
  · rfl

/-- Witness for C1 at the concrete unsafe target. -/
theorem spec_c1_witness :
    getAttr "xlink:href"
        (linkElement [Node.text "yo"] "javascript:alert(" (some "xss")) =
      some (wikiLocal ++ wikiQuote "javascript:alert(") :=
  spec_c1.1 [Node.text "yo"] "javascript:alert(" (some "xss") "javascript"
    (by decide) (by decide)

/-- C2: the input converter is total: every input yields a page/body tree
and never a parse error; malformed constructs (an unterminated link, an
unterminated code span, an unterminated raw-markup tag) degrade to literal
text at the point of ambiguity. -/
theorem spec_c2 :
    (∀ s : String, ∃ body,
      convert s = Node.elem "page" [] [Node.elem "body" [] body]) ∧
    convert "[foo](bar" = pagePara [Node.text "[foo](bar"] ∧
    convert "`abc" = pagePara [Node.text "`abc"] ∧
    convert "<u>abc" = pagePara [Node.text "<u>abc"] :=
  ⟨fun s => ⟨parseBlocks (splitLines s), rfl⟩, rfl, rfl, rfl⟩

/-- C3: an image/transclusion reference with empty alt text omits the alt
attribute entirely; with non-empty alt text the alt attribute carries it. -/
theorem spec_c3 :
    ∀ alt target title,
      (alt = "" → getAttr "html:alt" (imageElement alt target title) = none) ∧
      (alt ≠ "" →
        getAttr "html:alt" (imageElement alt target title) = some alt) := by
  intro alt target title
  constructor
  · intro h
    subst h
    cases hA : allowedScheme target <;> cases title <;>
      simp [imageElement, hA, getAttr, lookupAttr]
  · intro h
    cases hA : allowedScheme target <;> cases title <;>
      simp [imageElement, hA, h, getAttr, lookupAttr]

/-- Witness for C3 at an empty and a non-empty alt text. -/
theorem spec_c3_witness :
    getAttr "html:alt" (imageElement "" "png" (some "Optional title")) = none ∧
    getAttr "html:alt" (imageElement "Alt text" "png" (some "Optional title")) =
      some "Alt text" :=
  ⟨(spec_c3 "" "png" (some "Optional title")).1 rfl,
   (spec_c3 "Alt text" "png" (some "Optional title")).2 (by decide)⟩

/-- C4: the converter performs no link resolution: a wiki-local
image/transclusion target (no scheme) yields an inline include placeholder
carrying the unresolved reference tagged with the local scheme prefix, as
the concrete local transclusion example shows. -/
theorem spec_c4 :
    (∀ alt target title, schemeOf target = none →
      tagOf (imageElement alt target title) = "xinclude:include" ∧
      getAttr "xinclude:href" (imageElement alt target title) =
        some (wikiLocal ++ wikiQuote target)) ∧
    convert "![Alt](someitem)" =
      pagePara [Node.elem "xinclude:include"
        [("html:alt", "Alt"), ("xinclude:href", "wiki.local:someitem")] []] := by
  constructor
  · intro alt target title h
    have hA : allowedScheme target = false := by simp [allowedScheme, h]
    constructor
    · by_cases ha : alt = "" <;> cases title <;>
        simp [imageElement, hA, ha, tagOf]
    · by_cases ha : alt = "" <;> cases title <;>
        simp [imageElement, hA, ha, getAttr, lookupAttr]
  · rfl

/-- Witness for C4 at the concrete schemeless target. -/
theorem spec_c4_witness :
    tagOf (imageElement "Alt" "someitem" none) = "xinclude:include" ∧
    getAttr "xinclude:href" (imageElement "Alt" "someitem" none) =
      some (wikiLocal ++ wikiQuote "someitem") :=
  spec_c4.1 "Alt" "someitem" none (by decide)

/-- C5: list nesting depth is relative to the parent item's marker column:
the three-line example yields a two-level tree with "Item 1.2" nested in
"Item 1"'s body and "Item 2" as an outer sibling; a two-space-deeper item
also nests, and two items at the same (non-zero) column are siblings. -/
theorem spec_c5 :
    convert "* Item 1\n    * Item 1.2\n* Item 2" =
      pageTree [Node.elem "list" [("item-label-generate", "unordered")]
        [Node.elem "list-item" []
          [Node.elem "list-item-body" []
            [Node.text "Item 1",
             Node.elem "list" [("item-label-generate", "unordered")]
               [Node.elem "list-item" []
                 [Node.elem "list-item-body" [] [Node.text "Item 1.2"]]]]],
         Node.elem "list-item" []
          [Node.elem "list-item-body" [] [Node.text "Item 2"]]]] ∧
    convert "* A\n  * B" =
      pageTree [Node.elem "list" [("item-label-generate", "unordered")]
        [Node.elem "list-item" []
          [Node.elem "list-item-body" []
            [Node.text "A",
             Node.elem "list" [("item-label-generate", "unordered")]
               [Node.elem "list-item" []
                 [Node.elem "list-item-body" [] [Node.text "B"]]]]]]] ∧
    convert "  * A\n  * B" =
      pageTree [Node.elem "list" [("item-label-generate", "unordered")]
        [Node.elem "list-item" []
          [Node.elem "list-item-body" [] [Node.text "A"]],
         Node.elem "list-item" []
          [Node.elem "list-item-body" [] [Node.text "B"]]]] :=
  ⟨rfl, rfl, rfl⟩

/-- C6: a table whose second line is a separator of dashes/colons/pipes is
emitted as a table whose first child is a table-header of the first row's
cells as header cells followed by a table-body of the remaining rows, and
column count mismatches are tolerated by padding missing cells. -/
theorem spec_c6 :
    convert "First Header  | Second Header\n------------- | -------------\nContent Cell  | Content Cell\nContent Cell  | Content Cell" =
      pageTree [Node.elem "table" []
        [Node.elem "table-header" []
          [Node.elem "table-row" []
            [Node.elem "table-cell-head" [] [Node.text "First Header"],
             Node.elem "table-cell-head" [] [Node.text "Second Header"]]],
         Node.elem "table-body" []
          [Node.elem "table-row" []
            [Node.elem "table-cell" [] [Node.text "Content Cell"],
             Node.elem "table-cell" [] [Node.text "Content Cell"]],
           Node.elem "table-row" []
            [Node.elem "table-cell" [] [Node.text "Content Cell"],
             Node.elem "table-cell" [] [Node.text "Content Cell"]]]]] ∧
    (∀ n cs, (padCells n cs).length = max n cs.length) ∧
    (∀ l1 l2 rest, isThematicBreak l1 = false → isBullet l1 = false →
      isTableSep l2 = true →
      parseBlock (l1 :: l2 :: rest) = [parseTable (l1 :: l2 :: rest)]) ∧
    convert "A | B\n-|-\nC" =
      pageTree [Node.elem "table" []
        [Node.elem "table-header" []
          [Node.elem "table-row" []
            [Node.elem "table-cell-head" [] [Node.text "A"],
             Node.elem "table-cell-head" [] [Node.text "B"]]],
         Node.elem "table-body" []
          [Node.elem "table-row" []
            [Node.elem "table-cell" [] [Node.text "C"],
             Node.elem "table-cell" [] []]]]] := by
  refine ⟨rfl, ?_, ?_, rfl⟩
  · intro n cs
    simp [padCells]
    omega
  · intro l1 l2 rest h1 h2 h3
    simp [parseBlock, isTableBlock, h1, h2, h3]

/-- Witness for C6 at the concrete mismatched-columns table block. -/
theorem spec_c6_witness :
    parseBlock ["A | B", "-|-", "C"] = [parseTable ["A | B", "-|-", "C"]] :=
  spec_c6.2.2.1 "A | B" "-|-" ["C"] (by decide) (by decide) (by decide)

/-- C7: a line of three or more repeated marker characters alone becomes a
distinct separator element, never merged into a paragraph; in particular
the four-dash input yields a separator as a direct child of the body. -/
theorem spec_c7 :
    (∀ c n, (c = '-' ∨ c = '*' ∨ c = '_') → 3 ≤ n →
      parseBlocks [String.mk (List.replicate n c)] = [sepNode]) ∧
    convert "----" = pageTree [sepNode] := by
  constructor
  · intro c n hc hn
    obtain ⟨k, rfl⟩ : ∃ k, n = k + 3 := ⟨n - 3, by omega⟩
    have hne : (c == ' ') = false := by
      rcases hc with rfl | rfl | rfl <;> rfl
    have hmark : (c == '-' || c == '*' || c == '_') = true := by
      rcases hc with rfl | rfl | rfl <;> rfl
    have hblank : isBlank (String.mk (List.replicate (k + 3) c)) = false := by
      simp [isBlank, List.replicate_succ, hne]
    have hthem : isThematicBreak (String.mk (List.replicate (k + 3) c)) = true := by
      have hrep : List.replicate (k + 3) c = c :: List.replicate (k + 2) c := rfl
      simp [isThematicBreak, hrep, hmark, all_replicate_self]
    have hsplit : splitBlocksAux [String.mk (List.replicate (k + 3) c)] [] =
        [[String.mk (List.replicate (k + 3) c)]] := by
      simp [splitBlocksAux, hblank]
    simp [parseBlocks, hsplit, parseBlock, hthem]
  · rfl

/-- Witness for C7 at the four-dash line. -/
theorem spec_c7_witness :
    parseBlocks [String.mk (List.replicate 4 '-')] = [sepNode] :=
  spec_c7.1 '-' 4 (Or.inl rfl) (by decide)

/-- C8: a blacklisted inline raw-markup tag is dropped with its entire
content, an unrecognized-but-not-blacklisted tag is unwrapped keeping its
content (still scanned for nested markup), and a recognized tag keeps its
content as a nested subtree, as the button/custom/del examples show. -/
theorem spec_c8 :
    (∀ t inner, ignoredTags.contains t = true → handleTag t inner = []) ∧
    (∀ t inner, ignoredTags.contains t = false →
      lookupTag t knownInlineTags = none → handleTag t inner = inner) ∧
    (∀ t inner mt attrs, ignoredTags.contains t = false →
      lookupTag t knownInlineTags = some (mt, attrs) →
      handleTag t inner = [Node.elem mt attrs inner]) ∧
    convert "<button>`Stop`</button>" = pageTree [Node.elem "p" [] []] ∧
    convert "<custom>`1+1`</custom>" =
      pagePara [Node.elem "code" [] [Node.text "1+1"]] ∧
    convert "<del>`1+1`</del>" =
      pagePara [Node.elem "del" [] [Node.elem "code" [] [Node.text "1+1"]]] := by
  refine ⟨?_, ?_, ?_, rfl, rfl, rfl⟩
  · intro t inner h
    unfold handleTag
    rw [if_pos h]
  · intro t inner h1 h2
    unfold handleTag
    rw [if_neg (by rw [h1]; simp), h2]
  · intro t inner mt attrs h1 h2
    unfold handleTag
    rw [if_neg (by rw [h1]; simp), h2]

/-- Witness for C8 at a blacklisted, an unknown and a recognized tag. -/
theorem spec_c8_witness :
    handleTag "button" [Node.text "Stop"] = [] ∧
    handleTag "custom" [Node.elem "code" [] [Node.text "1+1"]] =
      [Node.elem "code" [] [Node.text "1+1"]] ∧
    handleTag "del" [Node.elem "code" [] [Node.text "1+1"]] =
      [Node.elem "del" [] [Node.elem "code" [] [Node.text "1+1"]]] :=
  ⟨spec_c8.1 "button" [Node.text "Stop"] (by decide),
   spec_c8.2.1 "custom" [Node.elem "code" [] [Node.text "1+1"]]
     (by decide) (by decide),
   spec_c8.2.2.1 "del" [Node.elem "code" [] [Node.text "1+1"]] "del" []
     (by decide) (by decide)⟩

/-- C9: every tree the converter produces has exactly one root element
tagged page wrapping a single body element, with all converted content
below that body. -/
theorem spec_c9 :
    ∀ s : String, tagOf (convert s) = "page" ∧
      ∃ body, convert s = Node.elem "page" [] [Node.elem "body" [] body] :=
  fun s => ⟨rfl, ⟨parseBlocks (splitLines s), rfl⟩⟩

/-- C10: an image/transclusion target with an allowed external scheme
becomes an object element with an external-link href, while a target
without a scheme becomes an include placeholder whose href carries the
wiki-local scheme prefix, as the two concrete examples show. -/
theorem spec_c10 :
    (∀ alt target title,
      (allowedScheme target = true →
        tagOf (imageElement alt target title) = "object" ∧
        getAttr "xlink:href" (imageElement alt target title) = some target) ∧
      (schemeOf target = none →
        tagOf (imageElement alt target title) = "xinclude:include" ∧
        getAttr "xinclude:href" (imageElement alt target title) =
          some (wikiLocal ++ wikiQuote target))) ∧
    convert "![remote image](http://static.moinmo.in/logos/moinmoin.png)" =
      pagePara [Node.elem "object"
        [("html:alt", "remote image"),
         ("xlink:href", "http://static.moinmo.in/logos/moinmoin.png")] []] ∧
    convert "![transclude local wiki item](someitem)" =
      pagePara [Node.elem "xinclude:include"
        [("html:alt", "transclude local wiki item"),
         ("xinclude:href", "wiki.local:someitem")] []] := by
  refine ⟨?_, rfl, rfl⟩
  intro alt target title
  constructor
  · intro h
    constructor
    · by_cases ha : alt = "" <;> cases title <;>
        simp [imageElement, h, ha, tagOf]
    · by_cases ha : alt = "" <;> cases title <;>
        simp [imageElement, h, ha, getAttr, lookupAttr]
  · intro h
    have hA : allowedScheme target = false := by simp [allowedScheme, h]
    constructor
    · by_cases ha : alt = "" <;> cases title <;>
        simp [imageElement, hA, ha, tagOf]
    · by_cases ha : alt = "" <;> cases title <;>
        simp [imageElement, hA, ha, getAttr, lookupAttr]

/-- Witness for C10 at an external and a schemeless target. -/
theorem spec_c10_witness :
    (tagOf (imageElement "remote image"
        "http://static.moinmo.in/logos/moinmoin.png" none) = "object" ∧
     getAttr "xlink:href" (imageElement "remote image"
        "http://static.moinmo.in/logos/moinmoin.png" none) =
       some "http://static.moinmo.in/logos/moinmoin.png") ∧
    (tagOf (imageElement "transclude local wiki item" "someitem" none) =
        "xinclude:include" ∧
     getAttr "xinclude:href"
        (imageElement "transclude local wiki item" "someitem" none) =
       some (wikiLocal ++ wikiQuote "someitem")) :=
  ⟨(spec_c10.1 "remote image" "http://static.moinmo.in/logos/moinmoin.png"
      none).1 (by decide),
   (spec_c10.1 "transclude local wiki item" "someitem" none).2 (by decide)⟩

end Moin
